import Mathlib

/-!
Shallow embedding of `src/main.go` (a websocket chat hub) and proofs about it.

The Go program keeps two package-level collections guarded (partially) by one
mutex `mu`:
  * `clients    : map[*websocket.Conn]string` — live joined connections to names;
  * `onlineUsers: map[string]bool`            — set of online display names;
and a channel `broadcast` consumed by a single goroutine `handleBroadcast`.

We model connections by natural-number identities, the two Go maps by lists
(an association list for `clients`, a duplicate-free list for `onlineUsers`),
and each handler's interaction with its socket by an explicit script of
receive/send results.  Every definition below is translated from the lines of
`src/main.go` cited in its doc comment.
-/

namespace WsChat

/-- The `Message` struct, src/main.go lines 24-29: fields `Type`, `Name`,
`Content`, `Users` (JSON tags `type`, `name`, `content`, `users`). -/
structure Message where
  type : String
  name : String
  content : String
  users : List String
deriving DecidableEq, Repr

/-- The registry: the two package-level collections of src/main.go lines 19
and 21.  `clients` is the map from connection identity to display name,
`onlineUsers` the set of online display names (kept duplicate-free, as Go map
keys are). -/
structure RegState where
  clients : List (Nat × String)
  onlineUsers : List String
deriving DecidableEq, Repr

/-- The empty registry, the initial values of `clients` and `onlineUsers`. -/
def RegState.empty : RegState := ⟨[], []⟩

/-- Go map insert `clients[ws] = name` (src/main.go line 53): any entry under
the same key is replaced. -/
def mapInsert (m : List (Nat × String)) (c : Nat) (n : String) : List (Nat × String) :=
  (c, n) :: m.filter (fun p => p.1 != c)

/-- Go map delete `delete(clients, ws)` (src/main.go lines 61, 77, 108). -/
def mapDelete (m : List (Nat × String)) (c : Nat) : List (Nat × String) :=
  m.filter (fun p => p.1 != c)

/-- Go set insert `onlineUsers[clientName] = true` (src/main.go line 50). -/
def setInsert (s : List String) (n : String) : List String :=
  if n ∈ s then s else n :: s

/-- Go set delete `delete(onlineUsers, clientName)` (src/main.go lines 63, 79,
109). -/
def setDelete (s : List String) (n : String) : List String :=
  s.filter (fun x => x != n)

/-- `getOnlineUsers`, src/main.go lines 116-122: copies the keys of
`onlineUsers` into a fresh slice. -/
def getOnlineUsers (s : RegState) : List String :=
  s.onlineUsers

/-- The join-time registry update, src/main.go lines 49-54: insert the name
into `onlineUsers`, take the snapshot `currentOnlineUsers := getOnlineUsers()`,
then insert the connection into `clients`.  Returns the new state and the
snapshot that is unicast back to the joiner. -/
def registryJoin (s : RegState) (c : Nat) (n : String) : RegState × List String :=
  let online := setInsert s.onlineUsers n
  let snapshot := getOnlineUsers ⟨s.clients, online⟩
  (⟨mapInsert s.clients c n, online⟩, snapshot)

/-- The leave-path registry update, src/main.go lines 77-81: delete the
connection from `clients`, delete the name from `onlineUsers`, then take the
post-removal snapshot.  Returns the new state and the snapshot. -/
def registryLeave (s : RegState) (c : Nat) (n : String) : RegState × List String :=
  let s₁ : RegState := ⟨mapDelete s.clients c, setDelete s.onlineUsers n⟩
  (s₁, getOnlineUsers s₁)

/-- The broadcaster's eviction of a failed recipient, src/main.go lines
106-110: delete the connection from `clients` and its name from
`onlineUsers` (no snapshot, no notification).  The rollback after a failed
unicast at join (lines 61-64) performs the same two deletions. -/
def registryEvict (s : RegState) (c : Nat) (n : String) : RegState :=
  ⟨mapDelete s.clients c, setDelete s.onlineUsers n⟩

/-- The presence message `Message{Type: "online_users", Users: us}` built at
src/main.go lines 57 and 83; the omitted fields `Name` and `Content` are Go
zero values, i.e. empty strings. -/
def presenceMsg (us : List String) : Message :=
  ⟨"online_users", "", "", us⟩

/-- The join notice `Message{Type: "join", Name: "", Content: ...}` built at
src/main.go line 69. -/
def joinNoticeMsg (n : String) : Message :=
  ⟨"join", "", n ++ " 加入了聊天室", []⟩

/-- The leave notice `Message{Type: "leave", Name: "", Content: ...}` built at
src/main.go line 82. -/
def leaveNoticeMsg (n : String) : Message :=
  ⟨"leave", "", n ++ " 離開了聊天室", []⟩

/-- The forced rewrite of a received chat message, src/main.go lines 87-88:
`msg.Type = "message"; msg.Name = clientName`. -/
def forwardMessage (clientName : String) (m : Message) : Message :=
  { m with type := "message", name := clientName }

/-- The broadcaster's per-recipient suppression test, src/main.go lines
97-101: on an `"online_users"` message, a recipient whose name equals the
message's (nonempty) `Name` is skipped. -/
def suppress (msg : Message) (name : String) : Bool :=
  msg.type == "online_users" && (msg.name != "" && name == msg.name)

/-- Result of one `ws.ReadJSON` call: a decoded message, or an error. -/
inductive ReadResult where
  | ok (m : Message)
  | err
deriving DecidableEq, Repr

/-- How `handleConnections` ends: `processFatal` models `log.Fatal` (the whole
server process exits), `returned` models the goroutine returning (the deferred
`ws.Close()` runs), `looping` models the handler still blocked in its receive
loop. -/
inductive HandlerOutcome where
  | processFatal
  | returned
  | looping
deriving DecidableEq, Repr

/-- The transport-level behaviour of one connection, as observed by
`handleConnections`: whether the upgrade succeeds, the result of the first
`ReadJSON` (the join payload), whether the unicast of the presence snapshot
succeeds, and the results of the `ReadJSON` calls of the message loop. -/
structure ConnScript where
  upgradeOk : Bool
  joinRead : ReadResult
  unicastOk : Bool
  loopReads : List ReadResult
deriving DecidableEq, Repr

/-- What one run of `handleConnections` produced: the final registry state,
the messages successfully unicast to this connection, the messages sent to
the `broadcast` channel in order, whether the connection was closed, and how
the handler ended. -/
structure HandlerResult where
  state : RegState
  sent : List Message
  enqueued : List Message
  closed : Bool
  outcome : HandlerOutcome
deriving DecidableEq, Repr

/-- The receive loop of `handleConnections`, src/main.go lines 72-91: each
successful read is rewritten by `forwardMessage` and sent to `broadcast`; the
first read error runs the leave path (lines 76-85: registry cleanup, then a
leave notice and a presence snapshot are sent to `broadcast`) and breaks out.
Returns the final state, the enqueued messages, and whether the loop has
terminated (`true` exactly when a read error occurred). -/
def messageLoop (s : RegState) (c : Nat) (clientName : String) :
    List ReadResult → RegState × List Message × Bool
  | [] => (s, [], false)
  | .ok m :: rest =>
    let r := messageLoop s c clientName rest
    (r.1, forwardMessage clientName m :: r.2.1, r.2.2)
  | .err :: _ =>
    let r := registryLeave s c clientName
    (r.1, [leaveNoticeMsg clientName, presenceMsg r.2], true)

/-- `handleConnections`, src/main.go lines 31-92, as a function of the
starting registry state, this connection's identity, and its transport
script.  Upgrade failure hits `log.Fatal` (line 35).  A failed or empty-name
join read returns before registering (lines 40-45).  Then the registry join,
the unicast of the snapshot (with rollback on failure, lines 57-66), the join
notice (line 69), and the receive loop. -/
def handleConnectionsModel (s : RegState) (c : Nat) (sc : ConnScript) : HandlerResult :=
  if sc.upgradeOk = false then
    ⟨s, [], [], false, .processFatal⟩
  else
    match sc.joinRead with
    | .err => ⟨s, [], [], true, .returned⟩
    | .ok jm =>
      if jm.name = "" then
        ⟨s, [], [], true, .returned⟩
      else
        let clientName := jm.name
        let j := registryJoin s c clientName
        if sc.unicastOk = false then
          ⟨registryEvict j.1 c clientName, [], [], true, .returned⟩
        else
          let r := messageLoop j.1 c clientName sc.loopReads
          ⟨r.1, [presenceMsg j.2], joinNoticeMsg clientName :: r.2.1,
            r.2.2, if r.2.2 then .returned else .looping⟩

/-- What one dequeued message produced in `handleBroadcast`: the registry
state after any evictions, the `(connection, message)` pairs successfully
written in order, the connections closed by the eviction branch, and the
messages the fan-out itself sent to the `broadcast` channel (the code sends
none). -/
structure BroadcastResult where
  state : RegState
  delivered : List (Nat × Message)
  closedConns : List Nat
  enqueued : List Message
deriving DecidableEq, Repr

/-- The fan-out loop body of `handleBroadcast`, src/main.go lines 96-112,
iterating over the snapshot of `clients` taken when the message was dequeued.
`failing` lists the connections whose `WriteJSON` fails; a failing recipient
is closed and evicted (lines 104-111) and the loop continues. -/
def fanOut (failing : List Nat) (msg : Message) :
    List (Nat × String) → RegState → BroadcastResult
  | [], s => ⟨s, [], [], []⟩
  | (c, name) :: rest, s =>
    if suppress msg name then
      fanOut failing msg rest s
    else if c ∈ failing then
      let r := fanOut failing msg rest (registryEvict s c name)
      ⟨r.state, r.delivered, c :: r.closedConns, r.enqueued⟩
    else
      let r := fanOut failing msg rest s
      ⟨r.state, (c, msg) :: r.delivered, r.closedConns, r.enqueued⟩

/-- One iteration of the outer loop of `handleBroadcast`, src/main.go lines
95-113: dequeue `msg` and fan it out to every entry of `clients`. -/
def handleBroadcastStep (s : RegState) (failing : List Nat) (msg : Message) :
    BroadcastResult :=
  fanOut failing msg s.clients s

/-- The registry-mutating events of the program: a connection completing the
join handshake (src/main.go lines 49-54), a handler's leave path after a read
error (lines 77-81), and the broadcaster's eviction after a write error
(lines 106-110). -/
inductive Op where
  | join (c : Nat) (n : String)
  | leave (c : Nat) (n : String)
  | evict (c : Nat) (n : String)
deriving DecidableEq, Repr

/-- The registry effect of one event, read off `registryJoin`,
`registryLeave` and `registryEvict`. -/
def opStep (s : RegState) : Op → RegState
  | .join c n => (registryJoin s c n).1
  | .leave c n => (registryLeave s c n).1
  | .evict c n => registryEvict s c n

/-- The registry state after a sequence of events starting from the initial
empty maps. -/
def runOps (ops : List Op) : RegState :=
  ops.foldl opStep RegState.empty

/-- Whether an event sequence can actually be produced by the program,
checked along the run: a join uses a fresh connection (Go allocates a fresh
`*websocket.Conn` per upgrade) and a nonempty name (line 42 rejects empty
names); a handler's leave names the pair that handler itself joined (`ws`,
`clientName`), whether or not the broadcaster evicted it in the meantime; the
broadcaster evicts only an entry it found in `clients`. -/
def validFrom (s : RegState) (joined : List (Nat × String)) : List Op → Bool
  | [] => true
  | .join c n :: rest =>
    decide (c ∉ joined.map Prod.fst) && (n != "") &&
      validFrom (opStep s (.join c n)) ((c, n) :: joined) rest
  | .leave c n :: rest =>
    decide ((c, n) ∈ joined) && validFrom (opStep s (.leave c n)) joined rest
  | .evict c n :: rest =>
    decide ((c, n) ∈ s.clients) && validFrom (opStep s (.evict c n)) joined rest

/-- A program-producible event sequence from the initial state. -/
def validHistory (ops : List Op) : Bool :=
  validFrom RegState.empty [] ops

/-- The spec's registry invariant: a display name is online iff some live
registered connection maps to it. -/
def Inv (s : RegState) : Prop :=
  ∀ n, n ∈ s.onlineUsers ↔ n ∈ s.clients.map Prod.snd

/-- Side condition on one event under which the invariant is preserved: a
join must use a display name no live connection currently maps to, and a
removal must either target a currently registered pair or touch neither
collection (connection already gone and name already offline). -/
def okStep (s : RegState) : Op → Bool
  | .join c n =>
    decide (c ∉ s.clients.map Prod.fst) && decide (n ∉ s.clients.map Prod.snd)
  | .leave c n =>
    decide ((c, n) ∈ s.clients) ||
      (decide (c ∉ s.clients.map Prod.fst) && decide (n ∉ s.onlineUsers))
  | .evict c n =>
    decide ((c, n) ∈ s.clients) ||
      (decide (c ∉ s.clients.map Prod.fst) && decide (n ∉ s.onlineUsers))

/-- `okStep` holding along a whole run. -/
def okFrom (s : RegState) : List Op → Bool
  | [] => true
  | op :: rest => okStep s op && okFrom (opStep s op) rest

/-- Event sequences from the initial state along which no live duplicate
display name ever arises. -/
def okHistory (ops : List Op) : Bool :=
  okFrom RegState.empty ops

/-- Which lines of src/main.go read or write the two registry collections,
and whether the access happens between `mu.Lock()` and `mu.Unlock()`.  One
entry per textual access: the join-path block (lines 50-53), the
failed-unicast rollback (lines 61-63), the leave path (lines 77-80), the
broadcaster's iteration (line 96) and its eviction (lines 108-109). -/
inductive RegistryField where
  | clientsMap
  | onlineSet
deriving DecidableEq, Repr

/-- One source-level access to a registry collection. -/
structure RegistryAccess where
  line : Nat
  field : RegistryField
  isWrite : Bool
  underMutex : Bool
deriving DecidableEq, Repr

/-- The complete table of registry accesses in src/main.go. -/
def registryAccesses : List RegistryAccess :=
  [⟨50, .onlineSet, true, true⟩,
   ⟨52, .onlineSet, false, true⟩,
   ⟨53, .clientsMap, true, true⟩,
   ⟨61, .clientsMap, true, false⟩,
   ⟨63, .onlineSet, true, true⟩,
   ⟨77, .clientsMap, true, false⟩,
   ⟨79, .onlineSet, true, true⟩,
   ⟨80, .onlineSet, false, true⟩,
   ⟨96, .clientsMap, false, false⟩,
   ⟨108, .clientsMap, true, true⟩,
   ⟨109, .onlineSet, true, true⟩]

/-- Two connections join as "Alice", then the first one leaves: a history the
program can produce. -/
def dupNameHistory : List Op :=
  [.join 1 "Alice", .join 2 "Alice", .leave 1 "Alice"]

/-- A well-behaved transport script that joins under name `n` and then sits
in the receive loop. -/
def joinScript (n : String) : ConnScript :=
  ⟨true, .ok ⟨"join", n, "", []⟩, true, []⟩

/-- Registry state after Alice (connection 1) has joined an empty room. -/
def stateAlice : RegState :=
  (handleConnectionsModel RegState.empty 1 (joinScript "Alice")).state

/-- Registry state after Alice (connection 1) and then Bob (connection 2)
have joined. -/
def stateAliceBob : RegState :=
  (handleConnectionsModel stateAlice 2 (joinScript "Bob")).state

/-- Alice's receive loop hitting a read error (abrupt disconnect) in
`stateAliceBob`. -/
def aliceLeaveRun : RegState × List Message × Bool :=
  messageLoop stateAliceBob 1 "Alice" [.err]

/-- A transport script whose upgrade fails. -/
def failedUpgradeScript : ConnScript :=
  ⟨false, .err, true, []⟩

/-- A transport script whose join payload carries an empty display name. -/
def emptyNameScript : ConnScript :=
  ⟨true, .ok ⟨"join", "", "x", ["u"]⟩, true, []⟩

/-- A chat message trying to spoof both the kind and the sender. -/
def spoofMsg : Message :=
  ⟨"online_users", "Mallory", "hi", ["x"]⟩

/-- A three-client registry used to exercise the broadcaster. -/
def fanOutDemoState : RegState :=
  ⟨[(1, "A"), (2, "B"), (3, "C")], ["A", "B", "C"]⟩

/-- A plain chat message as rewritten by the forwarding path. -/
def demoChatMsg : Message :=
  ⟨"message", "A", "hi", []⟩

/-- A duplicate-free history: Alice and Bob join, Alice leaves. -/
def okDemoHistory : List Op :=
  [.join 1 "Alice", .join 2 "Bob", .leave 1 "Alice"]

/-- Strengthened registry invariant used in the preservation proof: the
spec's online-set invariant together with duplicate-freeness of the live
display names and of the connection keys. -/
def GInv (s : RegState) : Prop :=
  Inv s ∧ (s.clients.map Prod.snd).Nodup ∧ (s.clients.map Prod.fst).Nodup

/-- An entry under a different key survives a Go map insert. -/
theorem mem_mapInsert {m : List (Nat × String)} {p : Nat × String} {c : Nat}
    {n : String} (hp : p ∈ m) (hne : p.1 ≠ c) : p ∈ mapInsert m c n := by
  unfold mapInsert
  exact List.mem_cons_of_mem _ (List.mem_filter.mpr ⟨hp, by simpa using hne⟩)

/-- An entry under a different key survives a Go map delete. -/
theorem mem_mapDelete {m : List (Nat × String)} {p : Nat × String} {c : Nat}
    (hp : p ∈ m) (hne : p.1 ≠ c) : p ∈ mapDelete m c :=
  List.mem_filter.mpr ⟨hp, by simpa using hne⟩

/-- The receive loop of a connection `c` never drops another connection's
entry from the `clients` map. -/
theorem mem_clients_messageLoop {s : RegState} {c : Nat} {clientName : String}
    {p : Nat × String} (reads : List ReadResult) (hp : p ∈ s.clients)
    (hne : p.1 ≠ c) : p ∈ (messageLoop s c clientName reads).1.clients := by
  induction reads with
  | nil => exact hp
  | cons r rest ih =>
    cases r with
    | ok m => exact ih
    | err => exact mem_mapDelete hp hne

/-- C2, counterexample: the claim says a client joining with no other clients
online receives a presence message whose users list is empty; in fact Alice,
joining an empty room, is unicast a presence snapshot listing herself,
because src/main.go line 50 inserts her name before line 52 takes the
snapshot. -/
theorem sole_joiner_snapshot_not_empty :
    (handleConnectionsModel RegState.empty 1 (joinScript "Alice")).sent =
      [presenceMsg ["Alice"]] ∧ (["Alice"] : List String) ≠ [] := by
  decide

/-- C2 (amended): the presence snapshot unicast to a newly joined client
includes that client's own name: it holds exactly the names online before the
join plus the joiner; concretely Alice joining an empty room receives
`users=["Alice"]`, and Bob joining after Alice receives `users=["Bob",
"Alice"]`. -/
theorem join_snapshot_includes_self :
    (∀ (s : RegState) (c : Nat) (n : String),
        n ∈ (registryJoin s c n).2 ∧
          ∀ m, m ∈ (registryJoin s c n).2 ↔ m = n ∨ m ∈ s.onlineUsers) ∧
      (registryJoin RegState.empty 1 "Alice").2 = ["Alice"] ∧
      (handleConnectionsModel stateAlice 2 (joinScript "Bob")).sent =
        [presenceMsg ["Bob", "Alice"]] := by
  refine ⟨fun s c n => ?_, by decide, by decide⟩
  unfold registryJoin getOnlineUsers setInsert
  by_cases h : n ∈ s.onlineUsers
  · simp only [if_pos h]
    exact ⟨h, fun m => ⟨Or.inr, fun hm => hm.elim (fun e => e ▸ h) id⟩⟩
  · simp [if_neg h, List.mem_cons]

/-- C3: the table of registry accesses of src/main.go contains accesses to
the `clients` map performed without holding `mu`: the delete in the
failed-unicast rollback (line 61), the delete in the leave path (line 77) and
the broadcaster's iteration over all recipients (line 96). -/
theorem clients_map_accessed_without_mutex :
    (registryAccesses.filter (fun a => !a.underMutex)).map
        (fun a => (a.line, a.field)) =
      [(61, RegistryField.clientsMap), (77, RegistryField.clientsMap),
        (96, RegistryField.clientsMap)] := by
  decide

/-- C4, counterexample: the claim says a failure to establish the
bidirectional channel never terminates the server process; in fact an
upgrade error hits `log.Fatal` (src/main.go line 35), which exits the whole
process. -/
theorem upgrade_error_kills_process :
    (handleConnectionsModel RegState.empty 1 failedUpgradeScript).outcome =
      HandlerOutcome.processFatal ∧
      HandlerOutcome.processFatal ≠ HandlerOutcome.returned := by
  decide

/-- C4 (amended): once the upgrade has succeeded, every transport error
(join-read failure, snapshot-send failure, loop-read failure) ends only that
connection's handling — the handler never reaches `log.Fatal` — and every
other connection's registry entry is untouched by this handler. -/
theorem post_upgrade_errors_contained (s : RegState) (c : Nat)
    (sc : ConnScript) (h : sc.upgradeOk = true) :
    (handleConnectionsModel s c sc).outcome ≠ HandlerOutcome.processFatal ∧
      ∀ p ∈ s.clients, p.1 ≠ c →
        p ∈ (handleConnectionsModel s c sc).state.clients := by
  unfold handleConnectionsModel
  rw [h]
  simp only [Bool.true_eq_false, if_false]
  cases hj : sc.joinRead with
  | err => exact ⟨by simp, fun p hp _ => hp⟩
  | ok jm =>
    by_cases hn : jm.name = ""
    · simp only [if_pos hn]
      exact ⟨by simp, fun p hp _ => hp⟩
    · simp only [if_neg hn]
      by_cases hu : sc.unicastOk = false
      · simp only [if_pos hu]
        refine ⟨by simp, fun p hp hne => ?_⟩
        exact mem_mapDelete (mem_mapInsert hp hne) hne
      · simp only [if_neg hu]
        constructor
        · cases hl : (messageLoop (registryJoin s c jm.name).1 c jm.name
              sc.loopReads).2.2 <;> simp [hl]
        · intro p hp hne
          exact mem_clients_messageLoop sc.loopReads (mem_mapInsert hp hne) hne

/-- C5, counterexample: the claim says that after Alice disconnects with Bob
online, Bob receives a presence update whose users list is empty; in fact
the post-leave snapshot still contains Bob, so Bob receives
`users=["Bob"]`. -/
theorem leave_presence_to_bob_not_empty :
    aliceLeaveRun.2.1 = [leaveNoticeMsg "Alice", presenceMsg ["Bob"]] ∧
      (handleBroadcastStep aliceLeaveRun.1 [] (presenceMsg ["Bob"])).delivered =
        [(2, presenceMsg ["Bob"])] ∧ (["Bob"] : List String) ≠ [] := by
  decide

/-- C5 (amended): when Alice (connection 1) disconnects abruptly while Bob
(connection 2) is online, the leave path enqueues a leave notice followed by
a presence update whose users list is `["Bob"]` (the post-leave snapshot),
the broadcaster delivers both to Bob, and Alice's connection is removed from
the registry. -/
theorem alice_disconnect_scenario :
    aliceLeaveRun.2.1 = [leaveNoticeMsg "Alice", presenceMsg ["Bob"]] ∧
      (handleBroadcastStep aliceLeaveRun.1 [] (leaveNoticeMsg "Alice")).delivered =
        [(2, leaveNoticeMsg "Alice")] ∧
      (handleBroadcastStep aliceLeaveRun.1 [] (presenceMsg ["Bob"])).delivered =
        [(2, presenceMsg ["Bob"])] ∧
      aliceLeaveRun.1.clients = [(2, "Bob")] := by
  decide

/-- C10: forwarding a message received from a joined client overwrites only
the `type` and `name` fields; `content` and `users` are passed through
verbatim, so a client-supplied users array is broadcast unchanged inside a
`"message"`-type payload. -/
theorem forward_preserves_content_users :
    ∀ (clientName : String) (m : Message),
      forwardMessage clientName m =
        ⟨"message", clientName, m.content, m.users⟩ := by
  intro clientName m
  rfl

/-- The fan-out loop sends nothing to the `broadcast` channel. -/
theorem fanOut_enqueued_nil (failing : List Nat) (msg : Message) :
    ∀ (l : List (Nat × String)) (s : RegState),
      (fanOut failing msg l s).enqueued = [] := by
  intro l
  induction l with
  | nil => intro s; rfl
  | cons p rest ih =>
    intro s
    obtain ⟨c, name⟩ := p
    simp only [fanOut]
    split
    · exact ih s
    · split
      · exact ih _
      · exact ih s

/-- A non-suppressed, non-failing recipient present in the iterated snapshot
receives the fanned-out message. -/
theorem fanOut_mem_delivered (failing : List Nat) (msg : Message) {c : Nat}
    {name : String} :
    ∀ (l : List (Nat × String)) (s : RegState), (c, name) ∈ l →
      suppress msg name = false → c ∉ failing →
      (c, msg) ∈ (fanOut failing msg l s).delivered := by
  intro l
  induction l with
  | nil => intro s h; exact absurd h (List.not_mem_nil _)
  | cons p rest ih =>
    intro s hmem hsup hfail
    obtain ⟨c₀, n₀⟩ := p
    rcases List.mem_cons.mp hmem with heq | htail
    · obtain ⟨hc, hn⟩ := Prod.mk.injEq .. ▸ heq
      subst hc
      subst hn
      simp only [fanOut, hsup]
      simp only [Bool.false_eq_true, if_false]
      rw [if_neg hfail]
      exact List.mem_cons_self _ _
    · simp only [fanOut]
      split
      · exact ih s htail hsup hfail
      · split
        · exact ih _ htail hsup hfail
        · exact List.mem_cons_of_mem _ (ih s htail hsup hfail)

/-- No connection key is in the `clients` map after its Go map delete. -/
theorem key_not_mem_mapDelete (m : List (Nat × String)) (c : Nat) :
    c ∉ (mapDelete m c).map Prod.fst := by
  intro hx
  obtain ⟨p, hp, he⟩ := List.mem_map.mp hx
  have h2 := (List.mem_filter.mp hp).2
  rw [he] at h2
  simp at h2

/-- The fan-out loop never adds keys to the `clients` map. -/
theorem fanOut_keys_subset (failing : List Nat) (msg : Message) :
    ∀ (l : List (Nat × String)) (s : RegState) (x : Nat),
      x ∈ (fanOut failing msg l s).state.clients.map Prod.fst →
      x ∈ s.clients.map Prod.fst := by
  intro l
  induction l with
  | nil => intro s x hx; exact hx
  | cons p rest ih =>
    intro s x hx
    obtain ⟨c₀, n₀⟩ := p
    simp only [fanOut] at hx
    split at hx
    · exact ih s x hx
    · split at hx
      · have h2 := ih _ x hx
        have h3 : List.Sublist ((mapDelete s.clients c₀).map Prod.fst)
            (s.clients.map Prod.fst) :=
          (List.filter_sublist s.clients).map Prod.fst
        exact h3.subset h2
      · exact ih s x hx

/-- A failing, non-suppressed recipient present in the iterated snapshot is
closed and its key is gone from the final `clients` map. -/
theorem fanOut_evicts (failing : List Nat) (msg : Message) {c : Nat}
    {name : String} :
    ∀ (l : List (Nat × String)) (s : RegState), (c, name) ∈ l →
      suppress msg name = false → c ∈ failing →
      c ∈ (fanOut failing msg l s).closedConns ∧
        c ∉ (fanOut failing msg l s).state.clients.map Prod.fst := by
  intro l
  induction l with
  | nil => intro s h; exact absurd h (List.not_mem_nil _)
  | cons p rest ih =>
    intro s hmem hsup hfail
    obtain ⟨c₀, n₀⟩ := p
    rcases List.mem_cons.mp hmem with heq | htail
    · obtain ⟨hc, hn⟩ := Prod.mk.injEq .. ▸ heq
      subst hc
      subst hn
      simp only [fanOut, hsup, Bool.false_eq_true, if_false]
      rw [if_pos hfail]
      refine ⟨List.mem_cons_self _ _, fun hx => ?_⟩
      have h2 := fanOut_keys_subset failing msg rest _ c hx
      exact key_not_mem_mapDelete s.clients c h2
    · simp only [fanOut]
      split
      · exact ih s htail hsup hfail
      · split
        · obtain ⟨h1, h2⟩ := ih _ htail hsup hfail
          exact ⟨List.mem_cons_of_mem _ h1, h2⟩
        · exact ih s htail hsup hfail

/-- C6: during fan-out of one message, a recipient whose send fails is closed
and its connection removed from the registry, every remaining (non-failing,
non-suppressed) recipient still receives the message, and the fan-out
enqueues nothing to the broadcast queue. -/
theorem broadcast_eviction_containment (s : RegState) (failing : List Nat)
    (msg : Message) (c : Nat) (name : String) (hmem : (c, name) ∈ s.clients)
    (hsup : suppress msg name = false) :
    (handleBroadcastStep s failing msg).enqueued = [] ∧
      (c ∉ failing → (c, msg) ∈ (handleBroadcastStep s failing msg).delivered) ∧
      (c ∈ failing → c ∈ (handleBroadcastStep s failing msg).closedConns ∧
        c ∉ (handleBroadcastStep s failing msg).state.clients.map Prod.fst) :=
  ⟨fanOut_enqueued_nil failing msg s.clients s,
   fun h => fanOut_mem_delivered failing msg s.clients s hmem hsup h,
   fun h => fanOut_evicts failing msg s.clients s hmem hsup h⟩

/-- C6 witness: in a three-client room where connection 2's send fails,
connection 3 still receives the chat message and connection 2 is closed. -/
theorem broadcast_eviction_containment_witness :
    (3, demoChatMsg) ∈
        (handleBroadcastStep fanOutDemoState [2] demoChatMsg).delivered ∧
      2 ∈ (handleBroadcastStep fanOutDemoState [2] demoChatMsg).closedConns :=
  ⟨(broadcast_eviction_containment fanOutDemoState [2] demoChatMsg 3 "C"
      (by decide) (by decide)).2.1 (by decide),
   ((broadcast_eviction_containment fanOutDemoState [2] demoChatMsg 2 "B"
      (by decide) (by decide)).2.2 (by decide)).1⟩

/-- A message successfully read before any read error is enqueued in its
forwarded form by the receive loop. -/
theorem messageLoop_enqueues_forward {c : Nat} {clientName : String}
    (m : Message) (post : List ReadResult) :
    ∀ (pre : List ReadResult) (s : RegState),
      (∀ r ∈ pre, r ≠ ReadResult.err) →
      forwardMessage clientName m ∈
        (messageLoop s c clientName (pre ++ ReadResult.ok m :: post)).2.1 := by
  intro pre
  induction pre with
  | nil =>
    intro s _
    simp only [List.nil_append, messageLoop]
    exact List.mem_cons_self _ _
  | cons r rest ih =>
    intro s hpre
    cases r with
    | ok m₀ =>
      simp only [List.cons_append, messageLoop]
      exact List.mem_cons_of_mem _
        (ih s fun x hx => hpre x (List.mem_cons_of_mem _ hx))
    | err => exact absurd rfl (hpre .err (List.mem_cons_self _ _))

/-- C7: every message successfully received by a joined connection is
enqueued to the broadcaster with its kind forced to `"message"` (the chat
kind) and its sender forced to the display name established at join,
regardless of the `type` and `name` the client supplied. -/
theorem forwarded_chat_forced_identity (s : RegState) (c : Nat)
    (clientName : String) (pre post : List ReadResult) (m : Message)
    (hpre : ∀ r ∈ pre, r ≠ ReadResult.err) :
    forwardMessage clientName m ∈
        (messageLoop s c clientName (pre ++ ReadResult.ok m :: post)).2.1 ∧
      (forwardMessage clientName m).type = "message" ∧
      (forwardMessage clientName m).name = clientName :=
  ⟨messageLoop_enqueues_forward m post pre s hpre, rfl, rfl⟩

/-- C7 witness: a message claiming type `"online_users"` and sender
`"Mallory"` is enqueued as a `"message"` from `"Alice"`. -/
theorem forwarded_chat_forced_identity_witness :
    forwardMessage "Alice" spoofMsg ∈
        (messageLoop RegState.empty 1 "Alice"
          ([] ++ ReadResult.ok spoofMsg :: [])).2.1 ∧
      (forwardMessage "Alice" spoofMsg).type = "message" ∧
      (forwardMessage "Alice" spoofMsg).name = "Alice" :=
  forwarded_chat_forced_identity RegState.empty 1 "Alice" [] [] spoofMsg
    (fun r h => absurd h (List.not_mem_nil r))

/-- C8: if the first read on an upgraded connection fails or yields a join
payload with an empty display name, the handler returns with the registry
unchanged, nothing enqueued to the broadcast queue, nothing unicast, and the
connection closed. -/
theorem handshake_failure_no_side_effect (s : RegState) (c : Nat)
    (sc : ConnScript) (hu : sc.upgradeOk = true)
    (h : sc.joinRead = ReadResult.err ∨
      ∃ m, sc.joinRead = ReadResult.ok m ∧ m.name = "") :
    (handleConnectionsModel s c sc).state = s ∧
      (handleConnectionsModel s c sc).enqueued = [] ∧
      (handleConnectionsModel s c sc).sent = [] ∧
      (handleConnectionsModel s c sc).closed = true := by
  unfold handleConnectionsModel
  rw [hu]
  simp only [Bool.true_eq_false, if_false]
  rcases h with he | ⟨m, hm, hname⟩
  · rw [he]
    exact ⟨rfl, rfl, rfl, rfl⟩
  · rw [hm]
    simp [if_pos hname]

/-- C8 witness: an empty-name join payload against a one-client registry
leaves the registry as it was and enqueues nothing. -/
theorem handshake_failure_no_side_effect_witness :
    (handleConnectionsModel ⟨[(1, "A")], ["A"]⟩ 2 emptyNameScript).state =
        ⟨[(1, "A")], ["A"]⟩ ∧
      (handleConnectionsModel ⟨[(1, "A")], ["A"]⟩ 2 emptyNameScript).enqueued = [] ∧
      (handleConnectionsModel ⟨[(1, "A")], ["A"]⟩ 2 emptyNameScript).sent = [] ∧
      (handleConnectionsModel ⟨[(1, "A")], ["A"]⟩ 2 emptyNameScript).closed = true :=
  handshake_failure_no_side_effect ⟨[(1, "A")], ["A"]⟩ 2 emptyNameScript rfl
    (Or.inr ⟨⟨"join", "", "x", ["u"]⟩, rfl, rfl⟩)

/-- Every message the program itself builds is immune to the broadcaster's
suppression branch, and carries an empty `name` whenever it is an
`"online_users"` message. -/
theorem suppress_of_shape (m : Message)
    (h : (∃ n m₀, m = forwardMessage n m₀) ∨ (∃ n, m = joinNoticeMsg n) ∨
      (∃ n, m = leaveNoticeMsg n) ∨ ∃ us, m = presenceMsg us) :
    (m.type = "online_users" → m.name = "") ∧
      ∀ name, suppress m name = false := by
  rcases h with ⟨n, m₀, he⟩ | ⟨n, he⟩ | ⟨n, he⟩ | ⟨us, he⟩ <;> subst he
  · exact ⟨fun he2 =>
      absurd he2 (show ("message" : String) ≠ "online_users" by decide),
      fun name => rfl⟩
  · exact ⟨fun he2 =>
      absurd he2 (show ("join" : String) ≠ "online_users" by decide),
      fun name => rfl⟩
  · exact ⟨fun he2 =>
      absurd he2 (show ("leave" : String) ≠ "online_users" by decide),
      fun name => rfl⟩
  · exact ⟨fun _ => rfl, fun name => rfl⟩

/-- Every message enqueued by the receive loop is a forwarded chat message,
a leave notice, or a presence snapshot. -/
theorem messageLoop_enqueued_shape {c : Nat} {clientName : String}
    {m : Message} :
    ∀ (reads : List ReadResult) (s : RegState),
      m ∈ (messageLoop s c clientName reads).2.1 →
      (∃ m₀, m = forwardMessage clientName m₀) ∨
        m = leaveNoticeMsg clientName ∨ ∃ us, m = presenceMsg us := by
  intro reads
  induction reads with
  | nil => intro s h; exact absurd h (List.not_mem_nil m)
  | cons r rest ih =>
    intro s h
    cases r with
    | ok m₀ =>
      simp only [messageLoop] at h
      rcases List.mem_cons.mp h with he | ht
      · exact Or.inl ⟨m₀, he⟩
      · exact ih s ht
    | err =>
      simp only [messageLoop] at h
      rcases List.mem_cons.mp h with he | ht
      · exact Or.inr (Or.inl he)
      · rcases List.mem_cons.mp ht with he2 | hn
        · exact Or.inr (Or.inr ⟨_, he2⟩)
        · exact absurd hn (List.not_mem_nil m)

/-- C9: every presence (`"online_users"`) message the program itself creates
— the unicast snapshot at join and the broadcast snapshot after a leave —
has an empty `name` field, and the broadcaster's suppression branch never
skips any recipient for any message the program produces. -/
theorem program_presence_messages_anonymous (s : RegState) (c : Nat)
    (sc : ConnScript) (m : Message)
    (h : m ∈ (handleConnectionsModel s c sc).enqueued ∨
      m ∈ (handleConnectionsModel s c sc).sent) :
    (m.type = "online_users" → m.name = "") ∧
      ∀ name, suppress m name = false := by
  refine suppress_of_shape m ?_
  obtain ⟨up, jr, uni, reads⟩ := sc
  cases up with
  | false => simp [handleConnectionsModel] at h
  | true =>
    cases jr with
    | err => simp [handleConnectionsModel] at h
    | ok jm =>
      by_cases hn : jm.name = ""
      · simp [handleConnectionsModel, hn] at h
      · cases uni with
        | false => simp [handleConnectionsModel, hn] at h
        | true =>
          dsimp only [handleConnectionsModel] at h
          rw [if_neg (by simp)] at h
          rw [if_neg hn, if_neg (by simp)] at h
          rcases h with h | h
          · rcases List.mem_cons.mp h with he | ht
            · exact Or.inr (Or.inl ⟨jm.name, he⟩)
            · rcases messageLoop_enqueued_shape reads _ ht with
                ⟨m₀, he2⟩ | he2 | ⟨us, he2⟩
              · exact Or.inl ⟨jm.name, m₀, he2⟩
              · exact Or.inr (Or.inr (Or.inl ⟨jm.name, he2⟩))
              · exact Or.inr (Or.inr (Or.inr ⟨us, he2⟩))
          · rcases List.mem_cons.mp h with he | hn2
            · exact Or.inr (Or.inr (Or.inr ⟨_, he⟩))
            · exact absurd hn2 (List.not_mem_nil m)

/-- C9 witness: the presence snapshot unicast to Alice at join is an
`"online_users"` message with empty `name` that the suppression branch never
skips. -/
theorem program_presence_messages_anonymous_witness :
    ((presenceMsg ["Alice"]).type = "online_users" →
        (presenceMsg ["Alice"]).name = "") ∧
      ∀ name, suppress (presenceMsg ["Alice"]) name = false :=
  program_presence_messages_anonymous RegState.empty 1 (joinScript "Alice")
    (presenceMsg ["Alice"]) (Or.inr (by decide))

/-- C4 witness: a handler whose join read fails after a successful upgrade
returns without killing the process, and a bystander's entry survives. -/
theorem post_upgrade_errors_contained_witness :
    (handleConnectionsModel ⟨[(1, "A")], ["A"]⟩ 2
        (ConnScript.mk true ReadResult.err true [])).outcome ≠
        HandlerOutcome.processFatal ∧
      ∀ p ∈ ([( 1, "A")] : List (Nat × String)), p.1 ≠ 2 →
        p ∈ (handleConnectionsModel ⟨[(1, "A")], ["A"]⟩ 2
          (ConnScript.mk true ReadResult.err true [])).state.clients :=
  post_upgrade_errors_contained ⟨[(1, "A")], ["A"]⟩ 2
    (ConnScript.mk true ReadResult.err true []) rfl

/-- Filtering out a key that is not in the association list is a no-op. -/
theorem filter_ne_key_eq_self {m : List (Nat × String)} {c : Nat}
    (h : c ∉ m.map Prod.fst) : m.filter (fun p => p.1 != c) = m := by
  refine List.filter_eq_self.mpr (fun p hp => ?_)
  have hne : p.1 ≠ c := fun he => h (he ▸ List.mem_map_of_mem Prod.fst hp)
  simpa using hne

/-- Deleting a name that is not in the set is a no-op. -/
theorem setDelete_eq_self {s : List String} {n : String} (h : n ∉ s) :
    setDelete s n = s := by
  refine List.filter_eq_self.mpr (fun x hx => ?_)
  have hne : x ≠ n := fun he => h (he ▸ hx)
  simpa using hne

/-- Membership after a Go set delete. -/
theorem mem_setDelete {s : List String} {n x : String} :
    x ∈ setDelete s n ↔ x ∈ s ∧ x ≠ n := by
  simp [setDelete, List.mem_filter]

/-- Membership after a Go map delete. -/
theorem mem_mapDelete_iff {m : List (Nat × String)} {c : Nat}
    {p : Nat × String} : p ∈ mapDelete m c ↔ p ∈ m ∧ p.1 ≠ c := by
  simp [mapDelete, List.mem_filter]

/-- The strengthened invariant is preserved by a join whose display name no
live connection currently maps to and whose connection key is fresh. -/
theorem ginv_join {s : RegState} {c : Nat} {n : String} (hg : GInv s)
    (hc : c ∉ s.clients.map Prod.fst) (hn : n ∉ s.clients.map Prod.snd) :
    GInv ⟨mapInsert s.clients c n, setInsert s.onlineUsers n⟩ := by
  obtain ⟨hInv, hns, hks⟩ := hg
  have hno : n ∉ s.onlineUsers := fun h => hn ((hInv n).mp h)
  have hins : setInsert s.onlineUsers n = n :: s.onlineUsers := if_neg hno
  have hmap : mapInsert s.clients c n = (c, n) :: s.clients := by
    unfold mapInsert
    rw [filter_ne_key_eq_self hc]
  refine ⟨fun x => ?_, ?_, ?_⟩
  · show x ∈ setInsert s.onlineUsers n ↔
      x ∈ (mapInsert s.clients c n).map Prod.snd
    rw [hins, hmap, List.map_cons]
    simp only [List.mem_cons]
    exact or_congr Iff.rfl (hInv x)
  · show ((mapInsert s.clients c n).map Prod.snd).Nodup
    rw [hmap, List.map_cons]
    exact List.nodup_cons.mpr ⟨hn, hns⟩
  · show ((mapInsert s.clients c n).map Prod.fst).Nodup
    rw [hmap, List.map_cons]
    exact List.nodup_cons.mpr ⟨hc, hks⟩

/-- The strengthened invariant is preserved by the two-deletion removal
(leave or eviction) when it targets a currently registered pair, or when it
touches neither collection. -/
theorem ginv_remove {s : RegState} {c : Nat} {n : String} (hg : GInv s)
    (h : (c, n) ∈ s.clients ∨
      (c ∉ s.clients.map Prod.fst ∧ n ∉ s.onlineUsers)) :
    GInv ⟨mapDelete s.clients c, setDelete s.onlineUsers n⟩ := by
  obtain ⟨hInv, hns, hks⟩ := hg
  rcases h with hmem | ⟨hc, hn⟩
  · have hfst : ∀ p ∈ s.clients, p.1 = c → p = (c, n) := fun p hp hpc =>
      List.inj_on_of_nodup_map hks hp hmem hpc
    have hsnd : ∀ p ∈ s.clients, p.1 ≠ c → p.2 ≠ n := by
      intro p hp hpc hpn
      exact hpc (congrArg Prod.fst (List.inj_on_of_nodup_map hns hp hmem hpn))
    refine ⟨fun x => ?_, ?_, ?_⟩
    · show x ∈ setDelete s.onlineUsers n ↔
        x ∈ (mapDelete s.clients c).map Prod.snd
      rw [mem_setDelete]
      constructor
      · rintro ⟨hx, hxn⟩
        obtain ⟨p, hp, hpe⟩ := List.mem_map.mp ((hInv x).mp hx)
        refine List.mem_map.mpr ⟨p, mem_mapDelete_iff.mpr ⟨hp, fun hpc => ?_⟩, hpe⟩
        exact hxn (by rw [← hpe, hfst p hp hpc])
      · intro hx
        obtain ⟨p, hp, hpe⟩ := List.mem_map.mp hx
        obtain ⟨hpm, hpc⟩ := mem_mapDelete_iff.mp hp
        exact ⟨(hInv x).mpr (List.mem_map.mpr ⟨p, hpm, hpe⟩),
          fun he => hsnd p hpm hpc (hpe.trans he)⟩
    · exact List.Nodup.sublist ((List.filter_sublist s.clients).map Prod.snd) hns
    · exact List.Nodup.sublist ((List.filter_sublist s.clients).map Prod.fst) hks
  · have h1 : mapDelete s.clients c = s.clients := filter_ne_key_eq_self hc
    have h2 : setDelete s.onlineUsers n = s.onlineUsers := setDelete_eq_self hn
    rw [h1, h2]
    exact ⟨hInv, hns, hks⟩

/-- The strengthened invariant is preserved along any run satisfying the
per-step side condition. -/
theorem ginv_okFrom : ∀ (ops : List Op) (s : RegState), GInv s →
    okFrom s ops = true → GInv (ops.foldl opStep s) := by
  intro ops
  induction ops with
  | nil => intro s hg _; exact hg
  | cons op rest ih =>
    intro s hg hok
    rw [okFrom, Bool.and_eq_true] at hok
    obtain ⟨h1, h2⟩ := hok
    refine ih (opStep s op) ?_ h2
    cases op with
    | join c n =>
      rw [okStep, Bool.and_eq_true, decide_eq_true_eq, decide_eq_true_eq] at h1
      exact ginv_join hg h1.1 h1.2
    | leave c n =>
      rw [okStep, Bool.or_eq_true, Bool.and_eq_true, decide_eq_true_eq,
        decide_eq_true_eq, decide_eq_true_eq] at h1
      exact ginv_remove hg h1
    | evict c n =>
      rw [okStep, Bool.or_eq_true, Bool.and_eq_true, decide_eq_true_eq,
        decide_eq_true_eq, decide_eq_true_eq] at h1
      exact ginv_remove hg h1

/-- C1, counterexample: the claimed invariant fails on a history the program
can produce: connections 1 and 2 both join as "Alice", then connection 1
leaves.  Connection 2 still maps "Alice" in `clients`, but "Alice" is no
longer in `onlineUsers`. -/
theorem duplicate_name_breaks_online_invariant :
    validHistory dupNameHistory = true ∧ ¬ Inv (runOps dupNameHistory) := by
  refine ⟨by decide, fun h => ?_⟩
  have h1 : "Alice" ∈ (runOps dupNameHistory).clients.map Prod.snd := by decide
  exact absurd ((h "Alice").mpr h1) (by decide)

/-- C1 (amended): a display name is in the online set iff at least one live
registered connection maps to it, for every state reached by a history in
which each join uses a fresh connection and a name no live connection
currently maps to, and each leave or eviction either targets a currently
registered pair or touches neither collection (connection already gone and
name already offline).  When two live connections share a name the invariant
fails (see the counterexample): one leave or eviction removes the name for
both. -/
theorem online_invariant_of_ok_history (ops : List Op)
    (h : okHistory ops = true) : Inv (runOps ops) :=
  (ginv_okFrom ops RegState.empty
    ⟨fun _ => Iff.rfl, List.nodup_nil, List.nodup_nil⟩ h).1

/-- C1 witness: the invariant holds after Alice and Bob join with distinct
names and Alice leaves. -/
theorem online_invariant_of_ok_history_witness :
    okHistory okDemoHistory = true ∧ Inv (runOps okDemoHistory) :=
  ⟨by decide, online_invariant_of_ok_history okDemoHistory (by decide)⟩

end WsChat
